import Mathlib

/-!
Shallow embedding of two VLC plugin fragments:

* `modules/text_renderer/freetype/fonts/fontconfig.c` — a fontconfig-backed
  font-family resolver (reference-counted global `FcConfig`, style matching,
  fallback lists memoized in a host dictionary);
* `modules/video_output/wayland/vulkan.c` — a Vulkan-on-Wayland
  surface-creation shim.

External library behaviour (fontconfig, Vulkan) is modelled by explicit
oracle parameters: each definition takes the results the external calls
would produce and mirrors the C control flow on them.  Host helpers that
live outside the excerpt (`vlc_dictionary`, `NewFamily`, `NewFont`,
`NewFamilyFromMixedCase`, `LowercaseDup`) are modelled from the spec and
marked as such in their doc comments.
-/

/-! ## VLC status codes -/

def VLC_SUCCESS : Int := 0
def VLC_EGENERIC : Int := -1
def VLC_ENOMEM : Int := -2

/-! ## Reference-counted global fontconfig handle

`fontconfig.c` keeps `static FcConfig *config; static uintptr_t refs;`
guarded by a static mutex.  Each entry point runs atomically under the
lock, so the concurrent behaviour is a sequence of atomic calls on this
global state.  `config` is `none` for `NULL`; a `some` value is the
identity of the handle `FcInitLoadConfigAndFonts` returned. -/

structure FcGlobalState where
  refs : Int
  config : Option Nat
deriving DecidableEq, Repr

/-- `FontConfig_Prepare`, non-Windows path.  `initResult` is the value the
external call `FcInitLoadConfigAndFonts()` would return (`none` = `NULL`).
C: `if (refs++ > 0) return VLC_SUCCESS;` then load the config; on `NULL`
reset `refs = 0`; return success iff the config is non-`NULL`. -/
def FontConfig_Prepare (initResult : Option Nat) (st : FcGlobalState) :
    Int × FcGlobalState :=
  if 0 < st.refs then
    (VLC_SUCCESS, { st with refs := st.refs + 1 })
  else
    match initResult with
    | none => (VLC_EGENERIC, { st with refs := 0, config := none })
    | some h => (VLC_SUCCESS, { st with refs := st.refs + 1, config := some h })

/-- `FontConfig_Unprepare`.  C: `assert(refs > 0); if (--refs == 0)
FcConfigDestroy(config);`.  Returns `none` when the assertion fails
(the C program would abort); otherwise the new state and a flag telling
whether `FcConfigDestroy` was invoked.  The static `config` pointer is not
cleared by the destroy call, so the `config` field is left as is. -/
def FontConfig_Unprepare (st : FcGlobalState) :
    Option (FcGlobalState × Bool) :=
  if 0 < st.refs then
    some ({ st with refs := st.refs - 1 }, st.refs - 1 == 0)
  else
    none

/-- One atomic call on the global state: a prepare (with the oracle result
of the fontconfig load) or an unprepare. -/
inductive FcEvent where
  | prepare (initResult : Option Nat)
  | unprepare
deriving DecidableEq, Repr

/-- Run a sequence of calls from a state.  `none` means some unprepare in
the sequence hit the assertion `refs > 0` with a non-positive count. -/
def runEvents : List FcEvent → FcGlobalState → Option FcGlobalState
  | [], st => some st
  | .prepare r :: rest, st => runEvents rest (FontConfig_Prepare r st).2
  | .unprepare :: rest, st =>
    match FontConfig_Unprepare st with
    | none => none
    | some (st', _) => runEvents rest st'

/-- `matchedTrace t n` says that, starting from a count of `n` successful
prepares not yet unprepared, every unprepare in `t` is preceded by a
matching successful prepare: the running count (incremented by each
prepare that returns `VLC_SUCCESS`, i.e. one made at a positive count or
one whose load succeeds, and decremented by each unprepare) is positive
whenever an unprepare occurs. -/
def matchedTrace : List FcEvent → Int → Bool
  | [], _ => true
  | .prepare r :: rest, n =>
    if 0 < n then matchedTrace rest (n + 1)
    else
      match r with
      | none => matchedTrace rest 0
      | some _ => matchedTrace rest (n + 1)
  | .unprepare :: rest, n => decide (0 < n) && matchedTrace rest (n - 1)

/-! ## Host family registry (modelled from the spec)

The registry itself lives in the host text renderer
(`platform_fonts.c`, not part of this excerpt). -/

/-- A font-file record with style flags, as stored in a family record. -/
structure vlc_font_rec_t where
  file : String
  index : Int
  bold : Bool
  italic : Bool
deriving DecidableEq, Repr

/-- Modelled from the spec: a family record of the host registry, mapping a
font family name to its candidate font files ("family record → list of
font-file records with style flags"). -/
structure vlc_family_t where
  psz_name : String
  fonts : List vlc_font_rec_t
deriving DecidableEq, Repr

/-- Modelled from the spec: the host `vlc_font_select_t` state visible to
this adapter — the family map (lowercased family name → family record) and
the fallback map (family-list key → fallback family-name list), both
host-owned dictionaries this code looks up and inserts into. -/
structure vlc_font_select_t where
  family_map : List (String × vlc_family_t)
  fallback_map : List (String × List String)
deriving DecidableEq, Repr

/-- The `fontfamilies_t` argument: a key plus a vector of lowercased
family names. -/
structure fontfamilies_t where
  psz_key : String
  vec : List String
deriving DecidableEq, Repr

/-- Modelled from the spec: `vlc_dictionary_value_for_key` of the host
dictionary; `none` stands for `kVLCDictionaryNotFound`. -/
def vlc_dictionary_value_for_key {α : Type} (d : List (String × α)) (k : String) :
    Option α :=
  (d.find? (fun p => p.1 == k)).map Prod.snd

/-- Modelled from the spec: `vlc_dictionary_insert` of the host dictionary. -/
def vlc_dictionary_insert {α : Type} (d : List (String × α)) (k : String) (v : α) :
    List (String × α) :=
  (k, v) :: d

/-- Modelled from the spec: `LowercaseDup` of the host — duplicate a name
with ASCII letters lowercased. -/
def LowercaseDup (s : String) : String :=
  String.mk (s.data.map Char.toLower)

/-- Modelled from the spec: `NewFamily` — create a fresh family record
with the given lowercase name and insert it into the family map
(lookup-or-create pattern; the caller looks the key up first). -/
def NewFamily (fs : vlc_font_select_t) (psz_fnlc : String) : vlc_font_select_t :=
  { fs with family_map := vlc_dictionary_insert fs.family_map psz_fnlc ⟨psz_fnlc, []⟩ }

/-- Modelled from the spec: `NewFont` — append a font-file record with its
style flags to the family record designated by `key` ("this code only
inserts into it"). -/
def NewFont (fs : vlc_font_select_t) (key : Option String) (file : String)
    (index : Int) (bold italic : Bool) : vlc_font_select_t :=
  match key with
  | none => fs
  | some k =>
    { fs with
      family_map := fs.family_map.map (fun p =>
        if p.1 == k then (p.1, { p.2 with fonts := p.2.fonts ++ [⟨file, index, bold, italic⟩] })
        else p) }

/-! ## `FontConfig_SelectAmongFamilies` -/

/-- The fields this code reads off the pattern `FcFontMatch` returned:
`FcPatternGetString(FC_FAMILY)`, `FcPatternGetBool(FC_OUTLINE)`,
`FcPatternGetInteger(FC_INDEX)`, `FcPatternGetString(FC_FILE)`; `none`
models a get that does not yield `FcResultMatch` (for `file`, also a
failed `strdup`). -/
structure FcMatchedPattern where
  family : Option String
  outline : Option Bool
  index : Option Int
  file : Option String
deriving DecidableEq, Repr

/-- Oracle for the external calls of one loop iteration of
`FontConfig_SelectAmongFamilies`: whether `FcPatternCreate` returns
non-`NULL`, whether `FcConfigSubstitute` succeeds, what `FcFontMatch`
produces (`none` = `NULL` pattern or `FcResultNoMatch`), and whether the
host `NewFamily` allocation succeeds. -/
structure FcSelectOracle where
  patternCreateOk : Bool
  substituteOk : Bool
  fontMatch : Option FcMatchedPattern
  newFamilyOk : Bool
deriving DecidableEq, Repr

/-- Loop state of `FontConfig_SelectAmongFamilies`: the host state, the
`p_family` local (as the lowercase key of the selected family record, once
established), and the trace of `(b_bold, b_italic)` combinations for which
`FcFontMatch` has been invoked. -/
structure SelectState where
  fs : vlc_font_select_t
  p_family : Option String
  matchCalls : List (Bool × Bool)
deriving DecidableEq, Repr

/-- The four `FC_SLANT`/`FC_WEIGHT` combinations the loop iterates over:
`b_bold = i & 1`, `b_italic = i & 2` for `i = 0, 1, 2, 3`. -/
def styleCombos : List (Bool × Bool) :=
  (List.range 4).map (fun i => (i &&& 1 != 0, i &&& 2 != 0))

/-- The tail of the loop body after the lookup-or-create block: the
`FC_OUTLINE` check (`continue` unless the matched pattern is an outline
font), the `FC_INDEX` read (defaulting to 0), the `FC_FILE` read
(`continue` when absent or `strdup` fails), and the `NewFont` insertion
into the selected family. -/
def FontConfig_SelectCheckPattern (pat : FcMatchedPattern)
    (b_bold b_italic : Bool) (st : SelectState) :
    Except SelectState SelectState :=
  if pat.outline != some true then .ok st
  else
    let i_index := pat.index.getD 0
    match pat.file with
    | none => .ok st
    | some psz_fontfile =>
      .ok { st with
            fs := NewFont st.fs st.p_family psz_fontfile i_index
                    b_bold b_italic }

/-- One iteration of the loop body of `FontConfig_SelectAmongFamilies` for
the combination `(b_bold, b_italic)`.  `.ok` is a completed iteration
(including every `continue` path); `.error` is the early
`return VLC_ENOMEM` taken when `NewFamily` fails. -/
def FontConfig_SelectStep (ora : FcSelectOracle) (b_bold b_italic : Bool)
    (st : SelectState) : Except SelectState SelectState :=
  if !ora.patternCreateOk then .ok st
  else if !ora.substituteOk then .ok st
  else
    let st := { st with matchCalls := st.matchCalls ++ [(b_bold, b_italic)] }
    match ora.fontMatch with
    | none => .ok st
    | some pat =>
      match pat.family with
      | none => .ok st
      | some val_s =>
        match st.p_family with
        | some _ => FontConfig_SelectCheckPattern pat b_bold b_italic st
        | none =>
          let psz_fnlc := LowercaseDup val_s
          match vlc_dictionary_value_for_key st.fs.family_map psz_fnlc with
          | some _ =>
            FontConfig_SelectCheckPattern pat b_bold b_italic
              { st with p_family := some psz_fnlc }
          | none =>
            if ora.newFamilyOk then
              FontConfig_SelectCheckPattern pat b_bold b_italic
                { st with fs := NewFamily st.fs psz_fnlc,
                          p_family := some psz_fnlc }
            else .error st

/-- The style loop: run the body on each combination/oracle pair in order,
stopping at an early `VLC_ENOMEM` return. -/
def selectLoop : List ((Bool × Bool) × FcSelectOracle) → SelectState →
    Except SelectState SelectState
  | [], st => .ok st
  | (combo, ora) :: rest, st =>
    match FontConfig_SelectStep ora combo.1 combo.2 st with
    | .error st => .error st
    | .ok st => selectLoop rest st

/-- Result of `FontConfig_SelectAmongFamilies`: the returned status, the
host state, `*pp_result` (`none` when left unset on the `VLC_ENOMEM` path
or set to `NULL`), and the trace of `FcFontMatch` invocations. -/
structure SelectResult where
  status : Int
  fs : vlc_font_select_t
  pp_result : Option String
  matchCalls : List (Bool × Bool)
deriving DecidableEq, Repr

/-- `FontConfig_SelectAmongFamilies`.  The `families` vector only feeds
the pattern handed to fontconfig, whose answers the per-iteration oracles
provide. -/
def FontConfig_SelectAmongFamilies (oracles : List FcSelectOracle)
    (fs : vlc_font_select_t) (families : fontfamilies_t) : SelectResult :=
  let _ := families
  match selectLoop (styleCombos.zip oracles) ⟨fs, none, []⟩ with
  | .error st => ⟨VLC_ENOMEM, st.fs, none, st.matchCalls⟩
  | .ok st => ⟨VLC_SUCCESS, st.fs, st.p_family, st.matchCalls⟩

/-- `FontConfig_GetFamily`: wrap the single lowercased name in a
`fontfamilies_t` and delegate to `FontConfig_SelectAmongFamilies`. -/
def FontConfig_GetFamily (oracles : List FcSelectOracle)
    (fs : vlc_font_select_t) (psz_lcname : String) : SelectResult :=
  FontConfig_SelectAmongFamilies oracles fs ⟨psz_lcname, [psz_lcname]⟩

/-! ## `FontConfig_GetFallbacksAmongFamilies` -/

/-- Oracle for the external calls of `FontConfig_GetFallbacksAmongFamilies`:
whether `FcPatternCreate` returns non-`NULL`, whether `FcConfigSubstitute`
returns `FcTrue`, the family names of the fonts in the set `FcFontSort`
returns (`none` = `NULL` set), and the success of each successive host
`NewFamilyFromMixedCase` allocation (missing entries mean success). -/
structure FcSortOracle where
  patternCreateOk : Bool
  substituteOk : Bool
  fontSet : Option (List String)
  allocOk : List Bool
deriving DecidableEq, Repr

/-- The loop over the sorted font set: for each font's family name, skip
it when it equals the previous kept name case-insensitively
(`strcasecmp`), otherwise create a family record for it
(`NewFamilyFromMixedCase`, which stores the lowercased name) and append it
to the fallback chain.  `.error` is the `return VLC_EGENERIC` taken when
the allocation fails. -/
def fallbackChainLoop (allocOk : List Bool) :
    List String → String → List String → Except Unit (List String)
  | [], _, p_family => .ok p_family
  | psz_name :: rest, psz_last_name, p_family =>
    if LowercaseDup psz_last_name == LowercaseDup psz_name then
      fallbackChainLoop allocOk rest psz_last_name p_family
    else if allocOk.getD p_family.length true then
      fallbackChainLoop allocOk rest (LowercaseDup psz_name)
        (p_family ++ [LowercaseDup psz_name])
    else .error ()

/-- Result of `FontConfig_GetFallbacksAmongFamilies`: the returned status,
the host state, `*pp_result` (`none` when left unset on an error path;
`some []` models a `NULL` family list), and whether any fontconfig call
was made (`false` on the memoized path, which returns before
`FcPatternCreate`). -/
structure FallbackResult where
  status : Int
  fs : vlc_font_select_t
  pp_result : Option (List String)
  consultedFc : Bool
deriving DecidableEq, Repr

/-- `FontConfig_GetFallbacksAmongFamilies`.  The `codepoint` argument is
`VLC_UNUSED`. -/
def FontConfig_GetFallbacksAmongFamilies (ora : FcSortOracle)
    (fs : vlc_font_select_t) (families : fontfamilies_t) (codepoint : Nat) :
    FallbackResult :=
  let _ := codepoint
  match vlc_dictionary_value_for_key fs.fallback_map families.psz_key with
  | some p_family => ⟨VLC_SUCCESS, fs, some p_family, false⟩
  | none =>
    if !ora.patternCreateOk then ⟨VLC_EGENERIC, fs, none, true⟩
    else
      let chain : Except Unit (List String) :=
        if ora.substituteOk then
          match ora.fontSet with
          | some names => fallbackChainLoop ora.allocOk names "" []
          | none => .ok []
        else .ok []
      match chain with
      | .error _ => ⟨VLC_EGENERIC, fs, none, true⟩
      | .ok p_family =>
        let fs :=
          if p_family.isEmpty then fs
          else { fs with
                 fallback_map :=
                   vlc_dictionary_insert fs.fallback_map families.psz_key p_family }
        ⟨VLC_SUCCESS, fs, some p_family, true⟩

/-! ## Vulkan-on-Wayland shim (`modules/video_output/wayland/vulkan.c`) -/

def VK_SUCCESS : Int := 0

def VK_KHR_WAYLAND_SURFACE_EXTENSION_NAME : String := "VK_KHR_wayland_surface"

/-- The window types this code distinguishes: `vk->window->type` either is
or is not `VOUT_WINDOW_TYPE_WAYLAND`. -/
inductive vout_window_type where
  | wayland
  | other
deriving DecidableEq, Repr

/-- The host window object: its type and the Wayland native handles
(`display.wl`, `handle.wl`). -/
structure vout_window_t where
  type : vout_window_type
  display_wl : Nat
  handle_wl : Nat
deriving DecidableEq, Repr

/-- A reference to the static `platform_ops` callback table
(`.close = ClosePlatform`, `.create_surface = CreateSurface`). -/
inductive vlc_vk_operations where
  | platform_ops
deriving DecidableEq, Repr

/-- The `vlc_vk_t` object fields this code touches: the host window, and
the `platform_ext` / `ops` fields it registers into. -/
structure vlc_vk_t where
  window : vout_window_t
  platform_ext : Option String
  ops : Option vlc_vk_operations
deriving DecidableEq, Repr

/-- `CreateSurface`: call `vkCreateWaylandSurfaceKHR` (whose result the
oracle `vkres`/`surface` provides) and map any non-`VK_SUCCESS` result to
`VLC_EGENERIC`.  The second component is `*surface_out` (`none` = not
set). -/
def CreateSurface (vkres : Int) (surface : Nat) (vk : vlc_vk_t) :
    Int × Option Nat :=
  let _ := vk
  if vkres != VK_SUCCESS then (VLC_EGENERIC, none)
  else (VLC_SUCCESS, some surface)

/-- `InitPlatform`: reject a non-Wayland window with `VLC_EGENERIC`;
otherwise register the Wayland surface extension name and the
`platform_ops` table on the vk object and return `VLC_SUCCESS`. -/
def InitPlatform (vk : vlc_vk_t) : Int × vlc_vk_t :=
  if vk.window.type != .wayland then (VLC_EGENERIC, vk)
  else
    (VLC_SUCCESS,
     { vk with platform_ext := some VK_KHR_WAYLAND_SURFACE_EXTENSION_NAME,
               ops := some .platform_ops })

/-! ## Entry-point inventory of `fontconfig.c` -/

/-- An externally visible function of `fontconfig.c`: its name and whether
its C return type is an `int` status (as opposed to `void`). -/
structure FontResolverEntryPoint where
  name : String
  returnsStatus : Bool
deriving DecidableEq, Repr

/-- The non-static functions defined in `fontconfig.c`, with their return
types taken from the function signatures: `int FontConfig_Prepare`,
`void FontConfig_Unprepare`, `int FontConfig_SelectAmongFamilies`,
`int FontConfig_GetFamily`, `int FontConfig_GetFallbacksAmongFamilies`. -/
def fontResolverEntryPoints : List FontResolverEntryPoint :=
  [⟨"FontConfig_Prepare", true⟩,
   ⟨"FontConfig_Unprepare", false⟩,
   ⟨"FontConfig_SelectAmongFamilies", true⟩,
   ⟨"FontConfig_GetFamily", true⟩,
   ⟨"FontConfig_GetFallbacksAmongFamilies", true⟩]

/-- The loop state carried by either outcome of the style loop (the early
`VLC_ENOMEM` return also leaves the host state behind). -/
def exceptState : Except SelectState SelectState → SelectState
  | .error st => st
  | .ok st => st

/-- Invariant of the style loop relative to the initial family-map key
list `init`: the key list is still `init`, or the loop has established
`p_family` and prepended exactly one new key — the lowercased form of some
matched family name that was absent from `init`. -/
def keysPreserved (init : List String) (st : SelectState) : Prop :=
  st.fs.family_map.map Prod.fst = init ∨
  (st.p_family ≠ none ∧
   ∃ s, LowercaseDup s ∉ init ∧
     st.fs.family_map.map Prod.fst = LowercaseDup s :: init)

theorem prepare_refs (r : Option Nat) (st : FcGlobalState) :
    ((FontConfig_Prepare r st).2).refs =
      if 0 < st.refs then st.refs + 1
      else match r with | none => 0 | some _ => st.refs + 1 := by
  unfold FontConfig_Prepare
  split
  · rfl
  · cases r <;> rfl

/-- A prepare returns `VLC_SUCCESS` iff the count was already positive or
the load succeeded. -/
theorem prepare_success_iff (r : Option Nat) (st : FcGlobalState) :
    (FontConfig_Prepare r st).1 = VLC_SUCCESS ↔ (0 < st.refs ∨ r.isSome) := by
  unfold FontConfig_Prepare
  split
  · simp_all
  · cases r <;> simp_all [VLC_SUCCESS, VLC_EGENERIC, Option.isSome]

theorem runEvents_matched (t : List FcEvent) :
    ∀ st : FcGlobalState, 0 ≤ st.refs → matchedTrace t st.refs = true →
      ∃ st', runEvents t st = some st' ∧ 0 ≤ st'.refs := by
  induction t with
  | nil =>
    intro st h _
    exact ⟨st, rfl, h⟩
  | cons e rest ih =>
    intro st hnn hm
    cases e with
    | prepare r =>
      simp only [runEvents]
      simp only [matchedTrace] at hm
      by_cases hpos : 0 < st.refs
      · simp only [if_pos hpos] at hm
        have hr : ((FontConfig_Prepare r st).2).refs = st.refs + 1 := by
          rw [prepare_refs, if_pos hpos]
        exact ih _ (by omega) (by rw [hr]; exact hm)
      · simp only [if_neg hpos] at hm
        cases r with
        | none =>
          have hr : ((FontConfig_Prepare none st).2).refs = 0 := by
            rw [prepare_refs, if_neg hpos]
          exact ih _ (by omega) (by rw [hr]; exact hm)
        | some h =>
          have hr : ((FontConfig_Prepare (some h) st).2).refs = st.refs + 1 := by
            rw [prepare_refs, if_neg hpos]
          exact ih _ (by rw [hr]; omega) (by rw [hr]; exact hm)
    | unprepare =>
      simp only [matchedTrace, Bool.and_eq_true, decide_eq_true_eq] at hm
      obtain ⟨hpos, hm⟩ := hm
      simp only [runEvents, FontConfig_Unprepare, if_pos hpos]
      exact ih _ (by simp; omega) (by simpa using hm)

/-- C1: in every sequence of prepare/unprepare calls in which each
unprepare is preceded by a matching successful prepare, the assertion
`refs > 0` at the start of each `FontConfig_Unprepare` holds (the run does
not abort) and the count stays non-negative after each decrement. -/
theorem fontconfig_refs_never_negative (t : List FcEvent)
    (hm : matchedTrace t 0 = true) :
    ∃ st', runEvents t ⟨0, none⟩ = some st' ∧ 0 ≤ st'.refs :=
  runEvents_matched t ⟨0, none⟩ (by simp) hm

theorem fontconfig_refs_never_negative_witness :
    matchedTrace [.prepare (some 1), .prepare none, .unprepare, .unprepare] 0 = true ∧
    ∃ st', runEvents [.prepare (some 1), .prepare none, .unprepare, .unprepare]
        ⟨0, none⟩ = some st' ∧ 0 ≤ st'.refs :=
  ⟨by decide,
   fontconfig_refs_never_negative
     [.prepare (some 1), .prepare none, .unprepare, .unprepare] (by decide)⟩

/-- C2: `FontConfig_Unprepare` decrements the count, destroys the config
handle iff the decremented count reaches zero, and for a call made while
the count is greater than one it neither destroys nor changes the config
handle. -/
theorem unprepare_decrements_destroys_iff_zero (st : FcGlobalState)
    (h : 0 < st.refs) :
    ∃ st' destroyed,
      FontConfig_Unprepare st = some (st', destroyed) ∧
      st'.refs = st.refs - 1 ∧
      (destroyed = true ↔ st.refs - 1 = 0) ∧
      (1 < st.refs → destroyed = false ∧ st'.config = st.config) := by
  refine ⟨{ st with refs := st.refs - 1 }, st.refs - 1 == 0, ?_, rfl, ?_, ?_⟩
  · simp [FontConfig_Unprepare, if_pos h]
  · simp
  · intro h1
    constructor
    · simp; omega
    · rfl

theorem unprepare_decrements_destroys_iff_zero_witness :
    0 < (2 : Int) ∧
    ∃ st' destroyed,
      FontConfig_Unprepare ⟨2, some 1⟩ = some (st', destroyed) ∧
      st'.refs = (2 : Int) - 1 ∧
      (destroyed = true ↔ (2 : Int) - 1 = 0) ∧
      (1 < (2 : Int) → destroyed = false ∧ st'.config = (some 1 : Option Nat)) :=
  ⟨by decide, unprepare_decrements_destroys_iff_zero ⟨2, some 1⟩ (by decide)⟩

/-- C3: a `FontConfig_Prepare` call made while the count is already
positive returns `VLC_SUCCESS`, increments the count by one, leaves the
config handle unchanged, and performs no re-initialization: its outcome
does not depend on what the external load would return. -/
theorem prepare_idempotent_when_positive (r : Option Nat) (st : FcGlobalState)
    (h : 0 < st.refs) :
    (FontConfig_Prepare r st).1 = VLC_SUCCESS ∧
    ((FontConfig_Prepare r st).2).refs = st.refs + 1 ∧
    ((FontConfig_Prepare r st).2).config = st.config ∧
    ∀ r2 : Option Nat, FontConfig_Prepare r2 st = FontConfig_Prepare r st := by
  refine ⟨?_, ?_, ?_, ?_⟩
  · simp [FontConfig_Prepare, if_pos h]
  · simp [FontConfig_Prepare, if_pos h]
  · simp [FontConfig_Prepare, if_pos h]
  · intro r2
    simp [FontConfig_Prepare, if_pos h]

theorem prepare_idempotent_when_positive_witness :
    0 < (1 : Int) ∧
    ((FontConfig_Prepare none ⟨1, some 7⟩).1 = VLC_SUCCESS ∧
     ((FontConfig_Prepare none ⟨1, some 7⟩).2).refs = (1 : Int) + 1 ∧
     ((FontConfig_Prepare none ⟨1, some 7⟩).2).config = (some 7 : Option Nat) ∧
     ∀ r2 : Option Nat,
       FontConfig_Prepare r2 ⟨1, some 7⟩ = FontConfig_Prepare none ⟨1, some 7⟩) :=
  ⟨by decide, prepare_idempotent_when_positive none ⟨1, some 7⟩ (by decide)⟩

/-! ## Lemmas about the style loop -/

theorem dict_lookup_none {α : Type} (d : List (String × α)) (k : String) :
    vlc_dictionary_value_for_key d k = none ↔ k ∉ d.map Prod.fst := by
  unfold vlc_dictionary_value_for_key
  rw [Option.map_eq_none', List.find?_eq_none]
  simp only [beq_iff_eq, List.mem_map, not_exists, not_and]

theorem newFont_keys (fs : vlc_font_select_t) (key : Option String)
    (file : String) (index : Int) (b i : Bool) :
    (NewFont fs key file index b i).family_map.map Prod.fst =
      fs.family_map.map Prod.fst := by
  cases key with
  | none => rfl
  | some k =>
    simp only [NewFont, List.map_map]
    apply List.map_congr_left
    intro p _
    by_cases h : p.1 = k <;> simp [h]

theorem checkPattern_ok (pat : FcMatchedPattern) (b i : Bool)
    (st : SelectState) :
    ∃ st', FontConfig_SelectCheckPattern pat b i st = .ok st' ∧
      st'.fs.family_map.map Prod.fst = st.fs.family_map.map Prod.fst ∧
      st'.p_family = st.p_family ∧
      st'.matchCalls = st.matchCalls := by
  simp only [FontConfig_SelectCheckPattern]
  repeat' split
  all_goals exact ⟨_, rfl, by simp [newFont_keys], rfl, rfl⟩

theorem checkPattern_matchCalls (pat : FcMatchedPattern) (b i : Bool)
    (st : SelectState) :
    (exceptState (FontConfig_SelectCheckPattern pat b i st)).matchCalls
      = st.matchCalls := by
  obtain ⟨st', hck, _, _, hmc⟩ := checkPattern_ok pat b i st
  rw [hck]
  exact hmc

theorem selectStep_matchCalls (ora : FcSelectOracle) (b i : Bool)
    (st : SelectState) :
    (exceptState (FontConfig_SelectStep ora b i st)).matchCalls = st.matchCalls ∨
    (exceptState (FontConfig_SelectStep ora b i st)).matchCalls
      = st.matchCalls ++ [(b, i)] := by
  simp only [FontConfig_SelectStep]
  repeat' split
  all_goals first
    | simp [checkPattern_matchCalls]
    | simp [exceptState]

theorem checkPattern_ok_matchCalls (pat : FcMatchedPattern) (b i : Bool)
    (st : SelectState) :
    ∃ st', FontConfig_SelectCheckPattern pat b i st = .ok st' ∧
      st'.matchCalls = st.matchCalls :=
  let ⟨st', h1, _, _, h4⟩ := checkPattern_ok pat b i st
  ⟨st', h1, h4⟩

theorem selectStep_proceeds (ora : FcSelectOracle) (b i : Bool)
    (st : SelectState) (hp : ora.patternCreateOk = true)
    (hs : ora.substituteOk = true) (hn : ora.newFamilyOk = true) :
    ∃ st', FontConfig_SelectStep ora b i st = .ok st' ∧
      st'.matchCalls = st.matchCalls ++ [(b, i)] := by
  obtain ⟨opc, osub, om, onf⟩ := ora
  obtain ⟨fs, pfam, mc⟩ := st
  cases opc
  · exact absurd hp (by simp)
  cases osub
  · exact absurd hs (by simp)
  cases onf
  · exact absurd hn (by simp)
  cases om with
  | none => exact ⟨_, rfl, rfl⟩
  | some pat =>
    obtain ⟨pfamo, pout, pidx, pfile⟩ := pat
    cases pfamo with
    | none => exact ⟨_, rfl, rfl⟩
    | some val_s =>
      cases pfam with
      | some k => exact checkPattern_ok_matchCalls _ b i _
      | none =>
        simp only [FontConfig_SelectStep]
        cases hlk : vlc_dictionary_value_for_key fs.family_map
            (LowercaseDup val_s) with
        | some fam => exact checkPattern_ok_matchCalls _ b i _
        | none => exact checkPattern_ok_matchCalls _ b i _

theorem selectLoop_matchCalls (l : List ((Bool × Bool) × FcSelectOracle)) :
    ∀ st : SelectState, ∃ tr,
      (exceptState (selectLoop l st)).matchCalls = st.matchCalls ++ tr ∧
      List.Sublist tr (l.map Prod.fst) := by
  induction l with
  | nil =>
    intro st
    exact ⟨[], by simp [selectLoop, exceptState], by simp⟩
  | cons p rest ih =>
    rcases p with ⟨⟨b, i⟩, ora⟩
    intro st
    simp only [selectLoop]
    cases hstep : FontConfig_SelectStep ora b i st with
    | error st1 =>
      have h := selectStep_matchCalls ora b i st
      rw [hstep] at h
      simp only [exceptState] at h
      rcases h with h | h
      · exact ⟨[], by simp [exceptState, h], by simp⟩
      · exact ⟨[(b, i)], by simp [exceptState, h], by simp⟩
    | ok st1 =>
      have h := selectStep_matchCalls ora b i st
      rw [hstep] at h
      simp only [exceptState] at h
      obtain ⟨tr, htr, hsub⟩ := ih st1
      rcases h with h | h
      · exact ⟨tr, by rw [htr, h], List.Sublist.cons _ hsub⟩
      · refine ⟨(b, i) :: tr, ?_, List.Sublist.cons₂ _ hsub⟩
        rw [htr, h]
        simp

theorem selectLoop_all_ok :
    ∀ l : List ((Bool × Bool) × FcSelectOracle),
      (∀ p ∈ l, p.2.patternCreateOk = true ∧ p.2.substituteOk = true ∧
        p.2.newFamilyOk = true) →
      ∀ st : SelectState, ∃ st', selectLoop l st = .ok st' ∧
        st'.matchCalls = st.matchCalls ++ l.map Prod.fst := by
  intro l
  induction l with
  | nil =>
    intro _ st
    exact ⟨st, rfl, by simp⟩
  | cons p rest ih =>
    rcases p with ⟨⟨b, i⟩, ora⟩
    intro hl st
    obtain ⟨hp, hs, hn⟩ := hl _ (List.mem_cons_self _ _)
    obtain ⟨st1, hstep, hmc⟩ := selectStep_proceeds ora b i st hp hs hn
    obtain ⟨st2, hloop, hmc2⟩ := ih (fun q hq => hl q (List.mem_cons_of_mem _ hq)) st1
    refine ⟨st2, ?_, ?_⟩
    · simp only [selectLoop, hstep]
      exact hloop
    · rw [hmc2, hmc]
      simp

theorem keysPreserved_mono (init : List String) {st st' : SelectState}
    (hk : st'.fs.family_map.map Prod.fst = st.fs.family_map.map Prod.fst)
    (hp : st.p_family ≠ none → st'.p_family ≠ none)
    (h : keysPreserved init st) : keysPreserved init st' := by
  rcases h with h | ⟨hne, s, hs, hkeys⟩
  · exact Or.inl (hk.trans h)
  · exact Or.inr ⟨hp hne, s, hs, hk.trans hkeys⟩

theorem checkPattern_keysPreserved (pat : FcMatchedPattern) (b i : Bool)
    (st : SelectState) (init : List String) (h : keysPreserved init st) :
    keysPreserved init (exceptState (FontConfig_SelectCheckPattern pat b i st)) := by
  obtain ⟨st', hck, hkeys, hpf, _⟩ := checkPattern_ok pat b i st
  rw [hck]
  exact keysPreserved_mono init hkeys (fun hne => hpf ▸ hne) h

theorem selectStep_keysPreserved (ora : FcSelectOracle) (b i : Bool)
    (st : SelectState) (init : List String) (h : keysPreserved init st) :
    keysPreserved init (exceptState (FontConfig_SelectStep ora b i st)) := by
  obtain ⟨opc, osub, om, onf⟩ := ora
  obtain ⟨fs, pfam, mc⟩ := st
  cases opc
  · exact h
  cases osub
  · exact h
  cases om with
  | none => exact h
  | some pat =>
    obtain ⟨pfamo, pout, pidx, pfile⟩ := pat
    cases pfamo with
    | none => exact h
    | some val_s =>
      cases pfam with
      | some k => exact checkPattern_keysPreserved _ b i _ init h
      | none =>
        simp only [FontConfig_SelectStep]
        cases hlk : vlc_dictionary_value_for_key fs.family_map
            (LowercaseDup val_s) with
        | some fam =>
          exact checkPattern_keysPreserved _ b i _ init
            (@keysPreserved_mono init ⟨fs, none, mc⟩
              ⟨fs, some (LowercaseDup val_s), mc ++ [(b, i)]⟩ rfl
              (fun _ => by simp) h)
        | none =>
          cases onf
          · exact h
          · apply checkPattern_keysPreserved
            rcases h with hkeq | ⟨hne, s, hs, hkeys⟩
            · right
              refine ⟨by simp, val_s, ?_, ?_⟩
              · have hni := (dict_lookup_none fs.family_map
                  (LowercaseDup val_s)).mp hlk
                rwa [show (vlc_font_select_t.family_map fs).map Prod.fst = init
                  from hkeq] at hni
              · simp only [NewFamily, vlc_dictionary_insert, List.map_cons]
                rw [show (vlc_font_select_t.family_map fs).map Prod.fst = init
                  from hkeq]
            · exact absurd rfl hne

theorem selectLoop_keysPreserved (l : List ((Bool × Bool) × FcSelectOracle)) :
    ∀ (st : SelectState) (init : List String), keysPreserved init st →
      keysPreserved init (exceptState (selectLoop l st)) := by
  induction l with
  | nil =>
    intro st init h
    exact h
  | cons p rest ih =>
    rcases p with ⟨⟨b, i⟩, ora⟩
    intro st init h
    simp only [selectLoop]
    cases hstep : FontConfig_SelectStep ora b i st with
    | error st1 =>
      have h1 := selectStep_keysPreserved ora b i st init h
      rw [hstep] at h1
      simpa [exceptState] using h1
    | ok st1 =>
      have h1 := selectStep_keysPreserved ora b i st init h
      rw [hstep] at h1
      simp only [exceptState] at h1
      simpa [exceptState] using ih st1 init h1

theorem select_fs_eq (oracles : List FcSelectOracle) (fs : vlc_font_select_t)
    (families : fontfamilies_t) :
    (FontConfig_SelectAmongFamilies oracles fs families).fs
      = (exceptState (selectLoop (styleCombos.zip oracles) ⟨fs, none, []⟩)).fs := by
  unfold FontConfig_SelectAmongFamilies
  cases selectLoop (styleCombos.zip oracles) ⟨fs, none, []⟩ <;> rfl

theorem select_matchCalls_eq (oracles : List FcSelectOracle)
    (fs : vlc_font_select_t) (families : fontfamilies_t) :
    (FontConfig_SelectAmongFamilies oracles fs families).matchCalls
      = (exceptState (selectLoop (styleCombos.zip oracles)
          ⟨fs, none, []⟩)).matchCalls := by
  unfold FontConfig_SelectAmongFamilies
  cases selectLoop (styleCombos.zip oracles) ⟨fs, none, []⟩ <;> rfl

theorem select_status_cases (oracles : List FcSelectOracle)
    (fs : vlc_font_select_t) (families : fontfamilies_t) :
    (FontConfig_SelectAmongFamilies oracles fs families).status = VLC_SUCCESS ∨
    (FontConfig_SelectAmongFamilies oracles fs families).status = VLC_ENOMEM := by
  unfold FontConfig_SelectAmongFamilies
  cases selectLoop (styleCombos.zip oracles) ⟨fs, none, []⟩
  · right; rfl
  · left; rfl

theorem fallback_status_cases (ora : FcSortOracle) (fs : vlc_font_select_t)
    (families : fontfamilies_t) (cp : Nat) :
    (FontConfig_GetFallbacksAmongFamilies ora fs families cp).status
      = VLC_SUCCESS ∨
    (FontConfig_GetFallbacksAmongFamilies ora fs families cp).status
      = VLC_EGENERIC := by
  simp only [FontConfig_GetFallbacksAmongFamilies]
  repeat' split
  all_goals simp

theorem prepare_status_cases (r : Option Nat) (st : FcGlobalState) :
    (FontConfig_Prepare r st).1 = VLC_SUCCESS ∨
    (FontConfig_Prepare r st).1 = VLC_EGENERIC := by
  unfold FontConfig_Prepare
  split
  · left; rfl
  cases r
  · right; rfl
  · left; rfl

theorem map_fst_zip_sublist {α β : Type} :
    ∀ (l₁ : List α) (l₂ : List β),
      List.Sublist ((l₁.zip l₂).map Prod.fst) l₁
  | [], _ => by simp
  | a :: l₁, [] => by simp
  | a :: l₁, b :: l₂ => by
    simp only [List.zip_cons_cons, List.map_cons]
    exact List.Sublist.cons₂ _ (map_fst_zip_sublist l₁ l₂)

/-- C4: every entry point of the two adapters maps its outcome to one of
the coarse VLC statuses — `FontConfig_SelectAmongFamilies`,
`FontConfig_GetFamily`, `FontConfig_GetFallbacksAmongFamilies` and
`FontConfig_Prepare` always return a value in
`{VLC_SUCCESS, VLC_ENOMEM, VLC_EGENERIC}`, as does the Vulkan
`CreateSurface` callback for any `VkResult`; and a fontconfig no-match is
never retried: across a whole `FontConfig_SelectAmongFamilies` call the
`FcFontMatch` invocations form a subsequence of the four style
combinations, so each combination is matched at most once whatever the
matcher answers. -/
theorem coarse_status_outcomes :
    (∀ (oracles : List FcSelectOracle) (fs : vlc_font_select_t)
       (families : fontfamilies_t),
       (FontConfig_SelectAmongFamilies oracles fs families).status ∈
         ([VLC_SUCCESS, VLC_ENOMEM, VLC_EGENERIC] : List Int)) ∧
    (∀ (oracles : List FcSelectOracle) (fs : vlc_font_select_t)
       (psz_lcname : String),
       (FontConfig_GetFamily oracles fs psz_lcname).status ∈
         ([VLC_SUCCESS, VLC_ENOMEM, VLC_EGENERIC] : List Int)) ∧
    (∀ (ora : FcSortOracle) (fs : vlc_font_select_t)
       (families : fontfamilies_t) (codepoint : Nat),
       (FontConfig_GetFallbacksAmongFamilies ora fs families codepoint).status ∈
         ([VLC_SUCCESS, VLC_ENOMEM, VLC_EGENERIC] : List Int)) ∧
    (∀ (r : Option Nat) (st : FcGlobalState),
       (FontConfig_Prepare r st).1 ∈
         ([VLC_SUCCESS, VLC_ENOMEM, VLC_EGENERIC] : List Int)) ∧
    (∀ (vkres : Int) (surface : Nat) (vk : vlc_vk_t),
       (CreateSurface vkres surface vk).1 ∈
         ([VLC_SUCCESS, VLC_ENOMEM, VLC_EGENERIC] : List Int)) ∧
    (∀ (oracles : List FcSelectOracle) (fs : vlc_font_select_t)
       (families : fontfamilies_t),
       List.Sublist
         (FontConfig_SelectAmongFamilies oracles fs families).matchCalls
         styleCombos) := by
  refine ⟨?_, ?_, ?_, ?_, ?_, ?_⟩
  · intro oracles fs families
    rcases select_status_cases oracles fs families with h | h <;> simp [h]
  · intro oracles fs psz_lcname
    rcases select_status_cases oracles fs ⟨psz_lcname, [psz_lcname]⟩ with h | h <;>
      simp [FontConfig_GetFamily, h]
  · intro ora fs families cp
    rcases fallback_status_cases ora fs families cp with h | h <;> simp [h]
  · intro r st
    rcases prepare_status_cases r st with h | h <;> simp [h]
  · intro vkres surface vk
    unfold CreateSurface
    split <;> simp
  · intro oracles fs families
    rw [select_matchCalls_eq]
    obtain ⟨tr, htr, hsub⟩ :=
      selectLoop_matchCalls (styleCombos.zip oracles) ⟨fs, none, []⟩
    rw [htr]
    simpa using hsub.trans (map_fst_zip_sublist styleCombos oracles)

/-- C6: the loop of `FontConfig_SelectAmongFamilies` enumerates exactly
the four bold/italic combinations, in the order regular, bold, italic,
bold-italic; when the external pattern calls proceed (pattern creation,
substitution and the family allocation succeed for all four iterations),
`FcFontMatch` is invoked exactly once per combination, in that order,
whatever the matcher answers. -/
theorem select_iterates_four_style_combos :
    styleCombos = [(false, false), (true, false), (false, true), (true, true)] ∧
    ∀ (oracles : List FcSelectOracle) (fs : vlc_font_select_t)
      (families : fontfamilies_t),
      oracles.length = 4 →
      (∀ o ∈ oracles, o.patternCreateOk = true ∧ o.substituteOk = true ∧
        o.newFamilyOk = true) →
      (FontConfig_SelectAmongFamilies oracles fs families).matchCalls
        = styleCombos := by
  refine ⟨by decide, ?_⟩
  intro oracles fs families hlen hgood
  have hzip : (styleCombos.zip oracles).map Prod.fst = styleCombos := by
    apply List.map_fst_zip
    rw [hlen]
    decide
  have hgood' : ∀ p ∈ styleCombos.zip oracles,
      p.2.patternCreateOk = true ∧ p.2.substituteOk = true ∧
      p.2.newFamilyOk = true := by
    intro p hp
    rcases p with ⟨c, o⟩
    exact hgood o (List.of_mem_zip hp).2
  obtain ⟨st', hloop, hmc⟩ :=
    selectLoop_all_ok (styleCombos.zip oracles) hgood' ⟨fs, none, []⟩
  rw [select_matchCalls_eq, hloop]
  simp only [exceptState]
  rw [hmc, hzip]
  rfl

theorem select_iterates_four_style_combos_witness :
    ([(⟨true, true, none, true⟩ : FcSelectOracle), ⟨true, true, none, true⟩,
      ⟨true, true, none, true⟩, ⟨true, true, none, true⟩].length = 4) ∧
    (FontConfig_SelectAmongFamilies
      [⟨true, true, none, true⟩, ⟨true, true, none, true⟩,
       ⟨true, true, none, true⟩, ⟨true, true, none, true⟩]
      ⟨[], []⟩ ⟨"k", []⟩).matchCalls = styleCombos :=
  ⟨by decide,
   select_iterates_four_style_combos.2
     [⟨true, true, none, true⟩, ⟨true, true, none, true⟩,
      ⟨true, true, none, true⟩, ⟨true, true, none, true⟩]
     ⟨[], []⟩ ⟨"k", []⟩ (by decide) (by decide)⟩

/-- C7: `FontConfig_SelectAmongFamilies` deduplicates family records by
lowercase name: starting from a family map with pairwise-distinct keys,
after the call the keys are still pairwise distinct, and the map either
kept exactly its old key list or gained exactly one key — the lowercased
form of a matched family name that the lookup reported absent. -/
theorem select_families_dedup_lowercase (oracles : List FcSelectOracle)
    (fs : vlc_font_select_t) (families : fontfamilies_t)
    (h : (fs.family_map.map Prod.fst).Nodup) :
    ((FontConfig_SelectAmongFamilies oracles fs families).fs.family_map.map
        Prod.fst).Nodup ∧
    ((FontConfig_SelectAmongFamilies oracles fs families).fs.family_map.map
        Prod.fst = fs.family_map.map Prod.fst ∨
      ∃ s, vlc_dictionary_value_for_key fs.family_map (LowercaseDup s) = none ∧
        (FontConfig_SelectAmongFamilies oracles fs families).fs.family_map.map
          Prod.fst = LowercaseDup s :: fs.family_map.map Prod.fst) := by
  have hinv := selectLoop_keysPreserved (styleCombos.zip oracles)
    ⟨fs, none, []⟩ (fs.family_map.map Prod.fst) (Or.inl rfl)
  rw [show (FontConfig_SelectAmongFamilies oracles fs families).fs.family_map
        = (exceptState (selectLoop (styleCombos.zip oracles)
            ⟨fs, none, []⟩)).fs.family_map
      from congrArg vlc_font_select_t.family_map
        (select_fs_eq oracles fs families)]
  rcases hinv with hk | ⟨_, s, hs, hk⟩
  · exact ⟨hk ▸ h, Or.inl hk⟩
  · refine ⟨?_, Or.inr ⟨s, (dict_lookup_none _ _).mpr hs, hk⟩⟩
    rw [hk]
    exact List.nodup_cons.mpr ⟨hs, h⟩

theorem select_families_dedup_lowercase_witness :
    ((([("arial", (⟨"arial", []⟩ : vlc_family_t))] : List (String × vlc_family_t)).map
        Prod.fst).Nodup) ∧
    (((FontConfig_SelectAmongFamilies
        [⟨true, true, some ⟨some "Foo", some true, some 0, some "/f.ttf"⟩, true⟩]
        ⟨[("arial", ⟨"arial", []⟩)], []⟩ ⟨"k", ["foo"]⟩).fs.family_map.map
        Prod.fst).Nodup ∧
      ((FontConfig_SelectAmongFamilies
        [⟨true, true, some ⟨some "Foo", some true, some 0, some "/f.ttf"⟩, true⟩]
        ⟨[("arial", ⟨"arial", []⟩)], []⟩ ⟨"k", ["foo"]⟩).fs.family_map.map
        Prod.fst = ([("arial", (⟨"arial", []⟩ : vlc_family_t))].map Prod.fst) ∨
      ∃ s, vlc_dictionary_value_for_key
             ([("arial", (⟨"arial", []⟩ : vlc_family_t))]) (LowercaseDup s) = none ∧
        (FontConfig_SelectAmongFamilies
          [⟨true, true, some ⟨some "Foo", some true, some 0, some "/f.ttf"⟩, true⟩]
          ⟨[("arial", ⟨"arial", []⟩)], []⟩ ⟨"k", ["foo"]⟩).fs.family_map.map
          Prod.fst
          = LowercaseDup s :: [("arial", (⟨"arial", []⟩ : vlc_family_t))].map
              Prod.fst)) :=
  ⟨by decide,
   select_families_dedup_lowercase
     [⟨true, true, some ⟨some "Foo", some true, some 0, some "/f.ttf"⟩, true⟩]
     ⟨[("arial", ⟨"arial", []⟩)], []⟩ ⟨"k", ["foo"]⟩ (by decide)⟩

/-- C8: `InitPlatform` returns `VLC_EGENERIC` and leaves the vk object
untouched when the host window is not a Wayland window; otherwise it
returns `VLC_SUCCESS` after registering the `platform_ops` callback table
and the Wayland surface extension name, and those two fields are the only
state it modifies (the window is unchanged). -/
theorem initPlatform_registers_or_rejects (vk : vlc_vk_t) :
    (vk.window.type ≠ vout_window_type.wayland →
      InitPlatform vk = (VLC_EGENERIC, vk)) ∧
    (vk.window.type = vout_window_type.wayland →
      (InitPlatform vk).1 = VLC_SUCCESS ∧
      (InitPlatform vk).2
        = { vk with
            platform_ext := some VK_KHR_WAYLAND_SURFACE_EXTENSION_NAME,
            ops := some vlc_vk_operations.platform_ops } ∧
      (InitPlatform vk).2.window = vk.window) := by
  constructor
  · intro h
    have hb : (vk.window.type != vout_window_type.wayland) = true := by
      cases htype : vk.window.type
      · exact absurd htype h
      · rfl
    simp [InitPlatform, hb]
  · intro h
    have hb : (vk.window.type != vout_window_type.wayland) = false := by
      rw [h]
      rfl
    refine ⟨?_, ?_, ?_⟩ <;> simp [InitPlatform, hb]

theorem initPlatform_registers_or_rejects_witness :
    ((⟨⟨vout_window_type.other, 0, 0⟩, none, none⟩ : vlc_vk_t).window.type
        ≠ vout_window_type.wayland ∧
      InitPlatform ⟨⟨vout_window_type.other, 0, 0⟩, none, none⟩
        = (VLC_EGENERIC, ⟨⟨vout_window_type.other, 0, 0⟩, none, none⟩)) ∧
    ((⟨⟨vout_window_type.wayland, 1, 2⟩, none, none⟩ : vlc_vk_t).window.type
        = vout_window_type.wayland ∧
      (InitPlatform ⟨⟨vout_window_type.wayland, 1, 2⟩, none, none⟩).1
        = VLC_SUCCESS) :=
  ⟨⟨by decide,
    (initPlatform_registers_or_rejects
      ⟨⟨vout_window_type.other, 0, 0⟩, none, none⟩).1 (by decide)⟩,
   ⟨rfl,
    ((initPlatform_registers_or_rejects
      ⟨⟨vout_window_type.wayland, 1, 2⟩, none, none⟩).2 rfl).1⟩⟩

/-- C5 (counterexample): `fontconfig.c` does not expose four entry points
that all return a status — it defines five externally visible functions,
and `FontConfig_Unprepare` has return type `void`, so the claim "exactly
four entry points, each returning a status" is false of the source. -/
theorem fontconfig_entry_points_claim_false :
    fontResolverEntryPoints.length = 5 ∧
    FontResolverEntryPoint.mk "FontConfig_Unprepare" false
      ∈ fontResolverEntryPoints ∧
    (decide (fontResolverEntryPoints.length = 4) &&
      fontResolverEntryPoints.all (fun e => e.returnsStatus)) = false := by
  exact ⟨rfl, by decide, by decide⟩

/-- C5 (amended): the font resolver exposes five entry points — prepare,
unprepare, select-among-families, get-family,
get-fallbacks-among-families — and every one of them except unprepare
(whose C return type is `void`) returns a generic
success/out-of-memory/generic-error status value to the host. -/
theorem fontconfig_entry_points_amended :
    fontResolverEntryPoints.length = 5 ∧
    fontResolverEntryPoints.all
      (fun e => e.returnsStatus == (e.name != "FontConfig_Unprepare"))
      = true := by
  exact ⟨rfl, by decide⟩

/-- C10: the result of `FontConfig_GetFallbacksAmongFamilies` — status,
host state and fallback list alike — does not depend on the `codepoint`
argument: two calls that differ only in the codepoint are equal. -/
theorem fallbacks_codepoint_independent (ora : FcSortOracle)
    (fs : vlc_font_select_t) (families : fontfamilies_t) (cp1 cp2 : Nat) :
    FontConfig_GetFallbacksAmongFamilies ora fs families cp1
      = FontConfig_GetFallbacksAmongFamilies ora fs families cp2 := rfl

/-- C9: `FontConfig_GetFallbacksAmongFamilies` memoizes per family key.
If the fallback map already contains the key, the cached list is returned
with `VLC_SUCCESS` and fontconfig is not consulted and the state is
unchanged; on a miss, whenever the query yields a non-`NULL` family list,
that list is inserted under the key, and any second call with the same
key — whatever its oracle and codepoint — returns the same list with
`VLC_SUCCESS` without consulting fontconfig or changing the state. -/
theorem fallbacks_memoized (ora : FcSortOracle) (fs : vlc_font_select_t)
    (families : fontfamilies_t) (cp : Nat) :
    (∀ ch, vlc_dictionary_value_for_key fs.fallback_map families.psz_key
        = some ch →
      FontConfig_GetFallbacksAmongFamilies ora fs families cp
        = ⟨VLC_SUCCESS, fs, some ch, false⟩) ∧
    (vlc_dictionary_value_for_key fs.fallback_map families.psz_key = none →
      ∀ ch, (FontConfig_GetFallbacksAmongFamilies ora fs families cp).pp_result
          = some ch →
        ch ≠ [] →
        vlc_dictionary_value_for_key
          (FontConfig_GetFallbacksAmongFamilies ora fs families cp).fs.fallback_map
          families.psz_key = some ch ∧
        ∀ (ora2 : FcSortOracle) (cp2 : Nat),
          FontConfig_GetFallbacksAmongFamilies ora2
            (FontConfig_GetFallbacksAmongFamilies ora fs families cp).fs
            families cp2
          = ⟨VLC_SUCCESS,
             (FontConfig_GetFallbacksAmongFamilies ora fs families cp).fs,
             some ch, false⟩) := by
  constructor
  · intro ch hhit
    simp only [FontConfig_GetFallbacksAmongFamilies, hhit]
  · intro hmiss ch hpp hne
    obtain ⟨opc, osub, ofs, oal⟩ := ora
    have hins : FontConfig_GetFallbacksAmongFamilies ⟨opc, osub, ofs, oal⟩
          fs families cp
        = ⟨VLC_SUCCESS,
           { fs with fallback_map :=
               vlc_dictionary_insert fs.fallback_map families.psz_key ch },
           some ch, true⟩ := by
      simp only [FontConfig_GetFallbacksAmongFamilies, hmiss] at hpp ⊢
      cases opc with
      | false => simp at hpp
      | true =>
        simp only [Bool.not_true, Bool.false_eq_true, if_false,
          reduceIte] at hpp ⊢
        cases hch : (if osub = true then
            match ofs with
            | some names => fallbackChainLoop oal names "" []
            | none => Except.ok []
          else Except.ok []) with
        | error e =>
          rw [hch] at hpp
          simp at hpp
        | ok fam =>
          rw [hch] at hpp
          cases fam with
          | nil =>
            simp at hpp
            exact absurd hpp hne
          | cons a l =>
            simp at hpp
            have hch2 : ch = a :: l := hpp.symm
            subst hch2
            simp
    rw [hins]
    constructor
    · simp [vlc_dictionary_value_for_key, vlc_dictionary_insert]
    · intro ora2 cp2
      have hhit2 : vlc_dictionary_value_for_key
          (vlc_dictionary_insert fs.fallback_map families.psz_key ch)
          families.psz_key = some ch := by
        simp [vlc_dictionary_value_for_key, vlc_dictionary_insert]
      simp only [FontConfig_GetFallbacksAmongFamilies, hhit2]

theorem fallbacks_memoized_witness :
    (vlc_dictionary_value_for_key
        ([("k", ["serif"])] : List (String × List String)) "k" = some ["serif"] ∧
      FontConfig_GetFallbacksAmongFamilies ⟨true, true, none, []⟩
          ⟨[], [("k", ["serif"])]⟩ ⟨"k", []⟩ 0
        = ⟨VLC_SUCCESS, ⟨[], [("k", ["serif"])]⟩, some ["serif"], false⟩) ∧
    (vlc_dictionary_value_for_key ([] : List (String × List String)) "k"
        = none ∧
      (FontConfig_GetFallbacksAmongFamilies ⟨true, true, some ["Serif"], []⟩
          ⟨[], []⟩ ⟨"k", ["foo"]⟩ 0).pp_result = some ["serif"] ∧
      (["serif"] : List String) ≠ [] ∧
      vlc_dictionary_value_for_key
        (FontConfig_GetFallbacksAmongFamilies ⟨true, true, some ["Serif"], []⟩
          ⟨[], []⟩ ⟨"k", ["foo"]⟩ 0).fs.fallback_map "k" = some ["serif"] ∧
      FontConfig_GetFallbacksAmongFamilies ⟨false, false, none, []⟩
          (FontConfig_GetFallbacksAmongFamilies ⟨true, true, some ["Serif"], []⟩
            ⟨[], []⟩ ⟨"k", ["foo"]⟩ 0).fs ⟨"k", ["foo"]⟩ 1
        = ⟨VLC_SUCCESS,
           (FontConfig_GetFallbacksAmongFamilies ⟨true, true, some ["Serif"], []⟩
             ⟨[], []⟩ ⟨"k", ["foo"]⟩ 0).fs,
           some ["serif"], false⟩) :=
  ⟨⟨by decide,
    (fallbacks_memoized ⟨true, true, none, []⟩ ⟨[], [("k", ["serif"])]⟩
      ⟨"k", []⟩ 0).1 ["serif"] (by decide)⟩,
   ⟨by decide, by decide, by decide,
    ((fallbacks_memoized ⟨true, true, some ["Serif"], []⟩ ⟨[], []⟩
        ⟨"k", ["foo"]⟩ 0).2 (by decide) ["serif"] (by decide) (by decide)).1,
    ((fallbacks_memoized ⟨true, true, some ["Serif"], []⟩ ⟨[], []⟩
        ⟨"k", ["foo"]⟩ 0).2 (by decide) ["serif"] (by decide) (by decide)).2
      ⟨false, false, none, []⟩ 1⟩⟩
